import Mathlib

/-!
Verification development for CompliancePro360.

The repository ships a Next.js dashboard (src/unnamed/part_000), deployment
scripts and a database backup script; the compliance engine itself (rule
catalog, due-date calculator, obligation instantiator, status and escalation
state machine, compliance scoring) is described by the specification and the
README but its backend code is not present under src/.  The engine is
therefore modelled here from the specification's words; the dashboard page
and the backup script are embedded from their sources.
-/

namespace CompliancePro

/-! ## Calendar arithmetic (proleptic Gregorian), used by the due-date
calculator.  Dates are represented as rata-die day numbers (day 1 is
0001-01-01, a Monday), so `rd % 7 = 6` is a Saturday and `rd % 7 = 0` a
Sunday. -/

/-- Gregorian leap-year test. -/
def isLeap (y : Nat) : Bool :=
  (y % 4 = 0 && y % 100 ≠ 0) || y % 400 = 0

/-- Number of days in month `m` (1-12) of year `y`. -/
def daysInMonth (y m : Nat) : Nat :=
  if m = 2 then (if isLeap y then 29 else 28)
  else if m = 4 || m = 6 || m = 9 || m = 11 then 30
  else 31

/-- Days strictly before January 1 of year `y` (y ≥ 1), counted from the
rata-die epoch. -/
def daysBeforeYear (y : Nat) : Nat :=
  365 * (y - 1) + (y - 1) / 4 + (y - 1) / 400 - (y - 1) / 100

/-- Days of year `y` strictly before the first of month `m`. -/
def daysBeforeMonth (y m : Nat) : Nat :=
  ((List.range (m - 1)).map (fun i => daysInMonth y (i + 1))).sum

/-- Rata-die day number of the calendar date `y-m-d`. -/
def rataDie (y m d : Nat) : Nat :=
  daysBeforeYear y + daysBeforeMonth y m + d

/-- Modelled from the spec: a day is a business day when it is neither a
Saturday nor a Sunday nor a configured holiday (weekend/holiday roll-forward
policy of the Due-Date Calculator, spec section 4.1). -/
def isBusinessDay (holidays : List Nat) (rd : Nat) : Bool :=
  rd % 7 ≠ 6 && rd % 7 ≠ 0 && !(holidays.contains rd)

/-- Modelled from the spec: advance a computed date to the next business day
when it falls on a non-business day (fuel-bounded forward search). -/
def rollForward (holidays : List Nat) : Nat → Nat → Nat
  | 0, rd => rd
  | fuel + 1, rd =>
    if isBusinessDay holidays rd then rd else rollForward holidays fuel (rd + 1)

/-! ## Rule catalog and periods -/

/-- Modelled from the spec: periodicity of an obligation rule
(monthly/quarterly/annual, spec section 3). -/
inductive Periodicity
  | monthly
  | quarterly
  | annual
deriving DecidableEq, Repr

/-- A target period, e.g. "2025-10" is `⟨2025, 10⟩`. -/
structure Period where
  year : Nat
  month : Nat
deriving DecidableEq, Repr

/-- Strict ordering of periods: `p` predates `q`. -/
def periodLt (p q : Period) : Bool :=
  p.year < q.year || (p.year = q.year && p.month < q.month)

/-- Modelled from the spec: an ObligationRule is immutable reference data with
an identifier, a periodicity, an offset-from-period-end rule (a configured
number of calendar days after period end) and an effective date expressed as
the first period the rule applies to (spec sections 3 and 4.1). -/
structure ObligationRule where
  id : String
  periodicity : Periodicity
  offsetDays : Nat
  effectiveFrom : Period
deriving DecidableEq, Repr

/-- Modelled from the spec: periodicity alignment — the rata-die day number of
the end of the target period: last day of the month for monthly rules, last
day of the enclosing quarter for quarterly rules, December 31 for annual
rules (spec section 4.1 (a)). -/
def periodEndDay (pc : Periodicity) (p : Period) : Nat :=
  match pc with
  | .monthly => rataDie p.year p.month (daysInMonth p.year p.month)
  | .quarterly =>
      let qm := ((p.month - 1) / 3) * 3 + 3
      rataDie p.year qm (daysInMonth p.year qm)
  | .annual => rataDie p.year 12 31

/-- Modelled from the spec: the Due-Date Calculator fails with
`InvalidPeriodError` when the requested period predates the rule's effective
date (spec section 4.1). -/
inductive DueDateError
  | InvalidPeriodError
deriving DecidableEq, Repr

/-- Modelled from the spec: the Due-Date Calculator — given a rule and a
target period, fail with `InvalidPeriodError` when the period predates the
rule's effective date, otherwise add the rule's configured offset in calendar
days to the period end and roll forward to the next business day when the
computed date falls on a non-business day (spec section 4.1).  The fuel
`7 * holidays.length + 7` always reaches the next business day: any stretch
of `7 * (n + 1)` consecutive days contains `n + 1` distinct Mondays, which a
list of `n` holidays cannot cover (`exists_business_within`). -/
def calcDueDate (holidays : List Nat) (r : ObligationRule) (p : Period) :
    Except DueDateError Nat :=
  if periodLt p r.effectiveFrom then
    .error .InvalidPeriodError
  else
    .ok (rollForward holidays (7 * holidays.length + 7)
          (periodEndDay r.periodicity p + r.offsetDays))

/-- The "GSTR-3B" rule of the spec's example: monthly, 20-day offset. -/
def gstr3b : ObligationRule :=
  { id := "GSTR-3B"
    periodicity := .monthly
    offsetDays := 20
    effectiveFrom := ⟨2017, 7⟩ }

/-! ## Status & Escalation State Machine (spec section 4.3) -/

/-- Modelled from the spec: the status of a TaskInstance
(pending → in_progress → completed, pending/in_progress → overdue →
completed). -/
inductive Status
  | pending
  | in_progress
  | completed
  | overdue
deriving DecidableEq, Repr

/-- Modelled from the spec: the two notification thresholds — near-due
(configurable lead time before the due date) and overdue. -/
inductive Threshold
  | nearDue
  | overdue
deriving DecidableEq, Repr

/-- Numeric rank of a threshold, used to order watermark values. -/
def Threshold.rank : Threshold → Nat
  | .nearDue => 1
  | .overdue => 2

/-- Rank of a last-notified watermark (`none` = nothing notified yet). -/
def watermarkRank : Option Threshold → Nat
  | none => 0
  | some t => t.rank

/-- Modelled from the spec: a TaskInstance belongs to one
(company, rule, period) triple and carries a due date, a status, a nullable
completion timestamp, an escalation level (spec section 3) and the
last-notified watermark used to deduplicate notifications (spec
section 4.3). -/
structure TaskInstance where
  company : Nat
  rule : Nat
  period : Nat
  due : Nat
  status : Status
  completedAt : Option Nat
  escalationLevel : Nat
  lastNotified : Option Threshold
deriving DecidableEq, Repr

/-- Modelled from the spec: the requests that drive a status transition —
starting work, completing the task, or the automatic overdue marking done by
the sweep. -/
inductive StatusEvent
  | start
  | complete
  | markOverdue
deriving DecidableEq, Repr

/-- Modelled from the spec: the status step function.  Completion is
reachable from any non-terminal state, `overdue` is entered from
pending/in_progress, and every other combination leaves the status
unchanged; `completed` is terminal (spec section 4.3). -/
def statusStep : StatusEvent → Status → Status
  | .start, .pending => .in_progress
  | .complete, .pending => .completed
  | .complete, .in_progress => .completed
  | .complete, .overdue => .completed
  | .markOverdue, .pending => .overdue
  | .markOverdue, .in_progress => .overdue
  | _, s => s

/-- Modelled from the spec: the set of one-directional transitions the spec
allows (pending → in_progress → completed and pending/in_progress →
overdue → completed, completion reachable from any non-terminal state). -/
def allowedTransition : Status → Status → Bool
  | .pending, .in_progress => true
  | .pending, .overdue => true
  | .pending, .completed => true
  | .in_progress, .overdue => true
  | .in_progress, .completed => true
  | .overdue, .completed => true
  | _, _ => false

/-- Modelled from the spec: a status transition applied to a TaskInstance at
time `now`; reaching `completed` records the completion timestamp (spec
section 3). -/
def applyEvent (now : Nat) (e : StatusEvent) (ti : TaskInstance) :
    TaskInstance :=
  let s' := statusStep e ti.status
  { ti with
      status := s'
      completedAt :=
        if ti.status ≠ Status.completed ∧ s' = Status.completed then some now
        else ti.completedAt }

/-- Modelled from the spec: a notification event emitted on a threshold
crossing, handed to the (external) Notification Dispatcher. -/
structure NotificationEvent where
  company : Nat
  rule : Nat
  period : Nat
  threshold : Threshold
deriving DecidableEq, Repr

/-- Modelled from the spec: the scheduled sweep applied to one TaskInstance.
A non-completed instance past its due date is transitioned to `overdue`;
an instance within `lead` days of its due date crosses the near-due
threshold.  Each crossing emits a notification exactly once: the
last-notified watermark is raised with the emission and a crossing at or
below the watermark emits nothing (spec sections 4.3 and 8). -/
def sweepInstance (lead today : Nat) (ti : TaskInstance) :
    TaskInstance × List NotificationEvent :=
  if ti.status = Status.completed then (ti, [])
  else if ti.due < today then
    if watermarkRank ti.lastNotified < Threshold.rank Threshold.overdue then
      ({ ti with status := Status.overdue,
                 lastNotified := some Threshold.overdue },
       [⟨ti.company, ti.rule, ti.period, Threshold.overdue⟩])
    else ({ ti with status := Status.overdue }, [])
  else if ti.due ≤ today + lead then
    if watermarkRank ti.lastNotified < Threshold.rank Threshold.nearDue then
      ({ ti with lastNotified := some Threshold.nearDue },
       [⟨ti.company, ti.rule, ti.period, Threshold.nearDue⟩])
    else (ti, [])
  else (ti, [])

/-! ## Obligation Instantiator and engine state (spec sections 4.2 and 5) -/

/-- Does `ti` belong to the (company, rule, period) triple `(c, r, p)`? -/
def sameTriple (c r p : Nat) (ti : TaskInstance) : Bool :=
  ti.company == c && ti.rule == r && ti.period == p

/-- Modelled from the spec: the fresh TaskInstance the Instantiator creates
when a period opens: status `pending`, no completion timestamp, escalation
level 0, nothing notified. -/
def newInstance (c r p due : Nat) : TaskInstance :=
  { company := c, rule := r, period := p, due := due,
    status := Status.pending, completedAt := none,
    escalationLevel := 0, lastNotified := none }

/-- Modelled from the spec: the Obligation Instantiator for one
(company, rule, period) triple — a no-op when an instance for the triple
already exists (idempotence guarded by the uniqueness constraint), otherwise
it materializes exactly one fresh instance (spec section 4.2). -/
def instantiate (c r p due : Nat) (s : List TaskInstance) :
    List TaskInstance :=
  if s.any (sameTriple c r p) then s else newInstance c r p due :: s

/-- Number of instances of the triple `(c, r, p)` in the state. -/
def countTriple (s : List TaskInstance) (c r p : Nat) : Nat :=
  s.countP (fun ti => sameTriple c r p ti)

/-- No two distinct TaskInstances share a (company, rule, period) triple. -/
def UniqueTriples (s : List TaskInstance) : Prop :=
  ∀ c r p, countTriple s c r p ≤ 1

/-- Modelled from the spec: the operations that may touch the engine state,
in any interleaving across workers — instantiation, a status transition on
one triple, and the scheduled sweep (spec section 5). -/
inductive Op
  | instantiateOp (c r p due : Nat)
  | transitionOp (c r p now : Nat) (e : StatusEvent)
  | sweepOp (lead today : Nat)

/-- Modelled from the spec: one operation applied to the engine state. -/
def applyOp : Op → List TaskInstance → List TaskInstance
  | .instantiateOp c r p due, s => instantiate c r p due s
  | .transitionOp c r p now e, s =>
      s.map (fun ti => if sameTriple c r p ti then applyEvent now e ti else ti)
  | .sweepOp lead today, s =>
      s.map (fun ti => (sweepInstance lead today ti).fst)

/-- Modelled from the spec: a sequence of operations run against the engine
state (any interleaving of the workers' writes). -/
def run (ops : List Op) (s : List TaskInstance) : List TaskInstance :=
  ops.foldl (fun t o => applyOp o t) s

/-! ## Compliance Scoring (spec section 4.4) -/

/-- Modelled from the spec: an instance counts as completed on time when it
is completed and its completion timestamp is at or before its due date. -/
def onTime (ti : TaskInstance) : Bool :=
  match ti.completedAt with
  | some t => (ti.status == Status.completed) && t ≤ ti.due
  | none => false

/-- The instances of company `c` inside the given trailing window. -/
def instancesOf (c : Nat) (window : List TaskInstance) : List TaskInstance :=
  window.filter (fun ti => ti.company == c)

/-- Modelled from the spec: the Compliance Scoring view —
100 × (completed on-time count) / (total instances in the trailing window),
with a zero denominator returning the neutral value `none` instead of a
division error (spec section 4.4). -/
def complianceScore (c : Nat) (window : List TaskInstance) : Option Nat :=
  let mine := instancesOf c window
  if mine.length = 0 then none
  else some (100 * (mine.filter onTime).length / mine.length)

/-! ## DashboardPage (src/unnamed/part_000)

The dashboard page keeps a `DashboardStats` React state, initialised to all
zeros, and a mount effect that replaces it with a fixed mock record; no
input reaches the effect. -/

/-- The `DashboardStats` interface of the dashboard page. -/
structure DashboardStats where
  totalCompanies : Nat
  pendingTasks : Nat
  completedTasks : Nat
  overdueTask : Nat
  averageComplianceScore : Nat
deriving DecidableEq, Repr

/-- The `useState` initialiser of `DashboardPage`: every statistic is 0. -/
def initialStats : DashboardStats :=
  { totalCompanies := 0, pendingTasks := 0, completedTasks := 0,
    overdueTask := 0, averageComplianceScore := 0 }

/-- The `useEffect` body of `DashboardPage`: `setStats` with the literal mock
record, regardless of the previous state (no API is consulted). -/
def mountEffect (_prev : DashboardStats) : DashboardStats :=
  { totalCompanies := 45, pendingTasks := 23, completedTasks := 156,
    overdueTask := 5, averageComplianceScore := 87 }

/-! ## backup.sh (src/scripts/backup.sh)

The script creates the backups directory, greps `docker-compose ps` output
for a line matching `compliancepro_db.*Up`, exits with status 1 when no such
line exists, and otherwise pipes `pg_dump` into the backup file (under
`set -e`, a failing `pg_dump` aborts with its exit code; the redirection has
already created the file). -/

/-- Is `pat` a prefix of `s`? -/
def listStartsWith : List Char → List Char → Bool
  | [], _ => true
  | _ :: _, [] => false
  | a :: as, b :: bs => (a == b) && listStartsWith as bs

/-- Does `s` contain `pat` as a contiguous substring? -/
def containsSub (pat : List Char) : List Char → Bool
  | [] => listStartsWith pat []
  | c :: cs => listStartsWith pat (c :: cs) || containsSub pat cs

/-- Matching of the regular expression `p1.*p2` against a whole line: some
occurrence of `p1` is followed, somewhere to its right, by `p2`. -/
def matchesSeq (p1 p2 : List Char) : List Char → Bool
  | [] => listStartsWith p1 [] && containsSub p2 []
  | c :: cs =>
    (listStartsWith p1 (c :: cs) && containsSub p2 ((c :: cs).drop p1.length))
      || matchesSeq p1 p2 cs

/-- Does one line of `docker-compose ps` output match
`compliancepro_db.*Up`? -/
def dbUpLine (l : String) : Bool :=
  matchesSeq "compliancepro_db".toList "Up".toList l.toList

/-- The `docker-compose ps | grep -q "compliancepro_db.*Up"` check. -/
def grepDbUp (lines : List String) : Bool :=
  lines.any dbUpLine

/-- The environment `backup.sh` runs in: the lines `docker-compose ps`
prints, and the exit code of the `pg_dump` invocation. -/
structure BackupEnv where
  psLines : List String
  pgDumpExitCode : Nat

/-- Observable outcome of one run of `backup.sh`. -/
structure BackupResult where
  exitCode : Nat
  pgDumpInvoked : Bool
  backupFileWritten : Bool
  backupsDirCreated : Bool
deriving DecidableEq, Repr

/-- The control flow of `backup.sh`: `mkdir -p backups` always runs; when the
database container check fails the script exits 1 before touching
`pg_dump`; otherwise `pg_dump` runs with its output redirected into the
backup file, and `set -e` propagates a non-zero `pg_dump` exit code. -/
def runBackup (env : BackupEnv) : BackupResult :=
  if grepDbUp env.psLines then
    if env.pgDumpExitCode = 0 then
      { exitCode := 0, pgDumpInvoked := true, backupFileWritten := true,
        backupsDirCreated := true }
    else
      { exitCode := env.pgDumpExitCode, pgDumpInvoked := true,
        backupFileWritten := true, backupsDirCreated := true }
  else
    { exitCode := 1, pgDumpInvoked := false, backupFileWritten := false,
      backupsDirCreated := true }

/-! ## Helper lemmas -/

theorem rollForward_of_business (holidays : List Nat) (fuel rd : Nat)
    (h : isBusinessDay holidays rd = true) :
    rollForward holidays fuel rd = rd := by
  cases fuel with
  | zero => rfl
  | succ n => simp [rollForward, h]

theorem rollForward_le (holidays : List Nat) (fuel rd : Nat) :
    rd ≤ rollForward holidays fuel rd := by
  induction fuel generalizing rd with
  | zero => simp [rollForward]
  | succ n ih =>
    simp only [rollForward]
    split
    · exact Nat.le_refl _
    · exact Nat.le_trans (Nat.le_succ rd) (ih (rd + 1))

theorem exists_business_within (holidays : List Nat) (rd : Nat) :
    ∃ k, k ≤ 7 * holidays.length + 6 ∧
      isBusinessDay holidays (rd + k) = true := by
  by_contra hcon
  push_neg at hcon
  set n := holidays.length with hn
  set j := (8 - rd % 7) % 7 with hj
  have hj6 : j ≤ 6 := by omega
  have hmem : ∀ i ≤ n, (rd + j + 7 * i) ∈ holidays := by
    intro i hi
    have hk : j + 7 * i ≤ 7 * n + 6 := by omega
    have hb := hcon (j + 7 * i) hk
    rw [← Nat.add_assoc] at hb
    have hm : (rd + j + 7 * i) % 7 = 1 := by omega
    have hb' : isBusinessDay holidays (rd + j + 7 * i) = false := by
      simpa using hb
    simpa [isBusinessDay, hm] using hb'
  have hcard : (Finset.range (n + 1)).card ≤ holidays.toFinset.card := by
    apply Finset.card_le_card_of_injOn (fun i => rd + j + 7 * i)
    · intro i hi
      simp only [Finset.mem_range] at hi
      simp only [List.mem_toFinset]
      exact hmem i (by omega)
    · intro a _ b _ hab
      have h' : rd + j + 7 * a = rd + j + 7 * b := hab
      omega
  have hle := holidays.toFinset_card_le
  simp only [Finset.card_range] at hcard
  omega

theorem rollForward_business_of_exists (holidays : List Nat) :
    ∀ fuel rd, (∃ k, k ≤ fuel ∧ isBusinessDay holidays (rd + k) = true) →
      isBusinessDay holidays (rollForward holidays fuel rd) = true := by
  intro fuel
  induction fuel with
  | zero =>
    rintro rd ⟨k, hk, hb⟩
    have hk0 : k = 0 := Nat.le_zero.mp hk
    subst hk0
    simpa [rollForward] using hb
  | succ m ih =>
    rintro rd ⟨k, hk, hb⟩
    by_cases h : isBusinessDay holidays rd = true
    · simp [rollForward, h]
    · have hne : k ≠ 0 := by
        rintro rfl
        exact h (by simpa using hb)
      obtain ⟨k', rfl⟩ : ∃ k', k = k' + 1 := ⟨k - 1, by omega⟩
      simp only [rollForward, h, if_false, Bool.false_eq_true]
      exact ih (rd + 1) ⟨k', by omega, by
        have hadd : rd + 1 + k' = rd + (k' + 1) := by omega
        rw [hadd]
        exact hb⟩

theorem rollForward_min (holidays : List Nat) :
    ∀ fuel rd d, rd ≤ d → d < rollForward holidays fuel rd →
      isBusinessDay holidays d = false := by
  intro fuel
  induction fuel with
  | zero =>
    intro rd d h1 h2
    simp only [rollForward] at h2
    omega
  | succ m ih =>
    intro rd d h1 h2
    by_cases h : isBusinessDay holidays rd = true
    · rw [rollForward_of_business holidays _ rd h] at h2
      omega
    · simp only [rollForward, h, if_false, Bool.false_eq_true] at h2
      rcases Nat.eq_or_lt_of_le h1 with rfl | h1'
      · simpa using h
      · exact ih (rd + 1) d h1' h2

theorem sweep_no_reemit_overdue (lead today : Nat) (u : TaskInstance)
    (h : Threshold.rank Threshold.overdue ≤ watermarkRank u.lastNotified) :
    (sweepInstance lead today u).snd = [] := by
  cases hl : u.lastNotified with
  | none => simp [watermarkRank, hl, Threshold.rank] at h
  | some t =>
    cases t with
    | nearDue => simp [watermarkRank, hl, Threshold.rank] at h
    | overdue =>
      by_cases h1 : u.status = Status.completed
      · simp [sweepInstance, h1]
      · by_cases h2 : u.due < today
        · simp [sweepInstance, h1, h2, hl, watermarkRank, Threshold.rank]
        · by_cases h3 : u.due ≤ today + lead
          · simp [sweepInstance, h1, h2, h3, hl, watermarkRank, Threshold.rank]
          · simp [sweepInstance, h1, h2, h3]

theorem sweep_no_reemit_nearDue (lead today : Nat) (u : TaskInstance)
    (h : Threshold.rank Threshold.nearDue ≤ watermarkRank u.lastNotified)
    (hd : ¬ u.due < today) :
    (sweepInstance lead today u).snd = [] := by
  by_cases h1 : u.status = Status.completed
  · simp [sweepInstance, h1]
  · by_cases h3 : u.due ≤ today + lead
    · cases hl : u.lastNotified with
      | none => simp [watermarkRank, hl, Threshold.rank] at h
      | some t =>
        cases t <;> simp [sweepInstance, h1, hd, h3, hl, watermarkRank, Threshold.rank]
    · simp [sweepInstance, h1, hd, h3]

theorem sweep_watermark_mono (lead today : Nat) (u : TaskInstance) :
    watermarkRank u.lastNotified ≤
      watermarkRank (sweepInstance lead today u).fst.lastNotified := by
  by_cases h1 : u.status = Status.completed
  · simp [sweepInstance, h1]
  · by_cases h2 : u.due < today
    · cases hl : u.lastNotified with
      | none => simp [sweepInstance, h1, h2, hl, watermarkRank, Threshold.rank]
      | some t =>
        cases t <;> simp [sweepInstance, h1, h2, hl, watermarkRank, Threshold.rank]
    · by_cases h3 : u.due ≤ today + lead
      · cases hl : u.lastNotified with
        | none => simp [sweepInstance, h1, h2, h3, hl, watermarkRank, Threshold.rank]
        | some t =>
          cases t <;> simp [sweepInstance, h1, h2, h3, hl, watermarkRank, Threshold.rank]
      · simp [sweepInstance, h1, h2, h3]

theorem sweepInstance_dedup (lead today : Nat) (ti : TaskInstance) :
    (sweepInstance lead today (sweepInstance lead today ti).fst).snd = [] := by
  by_cases h1 : ti.status = Status.completed
  · simp [sweepInstance, h1]
  · by_cases h2 : ti.due < today
    · cases hl : ti.lastNotified with
      | none => simp [sweepInstance, h1, h2, hl, watermarkRank, Threshold.rank]
      | some t =>
        cases t <;> simp [sweepInstance, h1, h2, hl, watermarkRank, Threshold.rank]
    · by_cases h3 : ti.due ≤ today + lead
      · cases hl : ti.lastNotified with
        | none => simp [sweepInstance, h1, h2, h3, hl, watermarkRank, Threshold.rank]
        | some t =>
          cases t <;> simp [sweepInstance, h1, h2, h3, hl, watermarkRank, Threshold.rank]
      · simp [sweepInstance, h1, h2, h3]

theorem sweepInstance_len (lead today : Nat) (ti : TaskInstance) :
    (sweepInstance lead today ti).snd.length ≤ 1 := by
  unfold sweepInstance
  repeat' split
  all_goals first
    | rfl
    | simp

theorem any_sameTriple_iff (s : List TaskInstance) (c r p : Nat) :
    s.any (sameTriple c r p) = true ↔ 0 < countTriple s c r p := by
  simp [countTriple, List.any_eq_true, List.countP_pos_iff]

theorem sameTriple_newInstance (c r p due : Nat) :
    sameTriple c r p (newInstance c r p due) = true := by
  simp [sameTriple, newInstance]

theorem applyEvent_sameTriple (now : Nat) (e : StatusEvent) (c r p : Nat)
    (ti : TaskInstance) :
    sameTriple c r p (applyEvent now e ti) = sameTriple c r p ti := rfl

theorem sweepInstance_sameTriple (lead today : Nat) (c r p : Nat)
    (ti : TaskInstance) :
    sameTriple c r p (sweepInstance lead today ti).fst = sameTriple c r p ti := by
  unfold sweepInstance
  repeat' split
  all_goals rfl

theorem countTriple_map (g : TaskInstance → TaskInstance) (c r p : Nat)
    (s : List TaskInstance)
    (hg : ∀ ti, sameTriple c r p (g ti) = sameTriple c r p ti) :
    countTriple (s.map g) c r p = countTriple s c r p := by
  simp only [countTriple, List.countP_map]
  exact List.countP_congr (fun a _ => by simp [Function.comp, hg a])

theorem sameTriple_eq_of_newInstance (c r p due c' r' p' : Nat)
    (h : sameTriple c' r' p' (newInstance c r p due) = true) :
    c' = c ∧ r' = r ∧ p' = p := by
  simp [sameTriple, newInstance] at h
  refine ⟨?_, ?_, ?_⟩ <;> omega

theorem applyOp_unique (o : Op) (s : List TaskInstance)
    (h : UniqueTriples s) : UniqueTriples (applyOp o s) := by
  cases o with
  | instantiateOp c r p due =>
    intro c' r' p'
    by_cases ha : s.any (sameTriple c r p) = true
    · simpa [applyOp, instantiate, ha] using h c' r' p'
    · simp only [applyOp, instantiate, ha, if_false, Bool.false_eq_true]
      simp only [countTriple, List.countP_cons]
      by_cases he : sameTriple c' r' p' (newInstance c r p due) = true
      · obtain ⟨rfl, rfl, rfl⟩ := sameTriple_eq_of_newInstance c r p due c' r' p' he
        have h0 : countTriple s c' r' p' = 0 := by
          rcases Nat.eq_zero_or_pos (countTriple s c' r' p') with h'' | h''
          · exact h''
          · exact absurd ((any_sameTriple_iff s c' r' p').mpr h'') ha
        have h0' : s.countP (fun ti => sameTriple c' r' p' ti) = 0 := h0
        simp [he, h0']
      · have he' : sameTriple c' r' p' (newInstance c r p due) = false := by
          simpa using he
        simpa [he'] using h c' r' p'
  | transitionOp c r p now e =>
    intro c' r' p'
    simp only [applyOp]
    rw [countTriple_map _ c' r' p' s]
    · exact h c' r' p'
    · intro ti
      by_cases hti : sameTriple c r p ti = true <;>
        simp [hti, applyEvent_sameTriple]
  | sweepOp lead today =>
    intro c' r' p'
    rw [applyOp, countTriple_map _ c' r' p' s
      (fun ti => sweepInstance_sameTriple lead today c' r' p' ti)]
    exact h c' r' p'

/-! ## Claim theorems -/

/-- C1: for every (company, rule, period) triple, invoking the Obligation
Instantiator on a state holding at most one instance of the triple yields a
state with exactly one TaskInstance for it, and a second invocation for the
already-instantiated period is a no-op (the operation is idempotent). -/
theorem instantiator_idempotent_unique (c r p due : Nat)
    (s : List TaskInstance) (h : countTriple s c r p ≤ 1) :
    countTriple (instantiate c r p due s) c r p = 1 ∧
    instantiate c r p due (instantiate c r p due s) = instantiate c r p due s := by
  by_cases ha : s.any (sameTriple c r p) = true
  · have hpos : 0 < countTriple s c r p := (any_sameTriple_iff s c r p).mp ha
    have h1 : countTriple s c r p = 1 := Nat.le_antisymm h hpos
    simp [instantiate, ha, h1]
  · have h0 : countTriple s c r p = 0 := by
      rcases Nat.eq_zero_or_pos (countTriple s c r p) with h' | h'
      · exact h'
      · exact absurd ((any_sameTriple_iff s c r p).mpr h') ha
    constructor
    · have h0' : s.countP (fun ti => sameTriple c r p ti) = 0 := h0
      simp [instantiate, ha, countTriple, List.countP_cons,
        sameTriple_newInstance, h0']
    · simp [instantiate, ha, List.any_cons, sameTriple_newInstance]

theorem instantiator_idempotent_unique_witness :
    countTriple [] 1 1 1 ≤ 1 ∧
    countTriple (instantiate 1 1 1 0 []) 1 1 1 = 1 ∧
    instantiate 1 1 1 0 (instantiate 1 1 1 0 []) = instantiate 1 1 1 0 [] := by
  have h := instantiator_idempotent_unique 1 1 1 0 [] (by decide)
  exact ⟨by decide, h.1, h.2⟩

/-- C2: in every state reachable by any sequence of operations
(instantiations, status transitions, sweeps — any interleaving of worker
writes), no two distinct TaskInstances share the same
(company, rule, period) triple. -/
theorem run_preserves_unique_triples (ops : List Op) (s : List TaskInstance)
    (h : UniqueTriples s) : UniqueTriples (run ops s) := by
  induction ops generalizing s with
  | nil => exact h
  | cons o rest ih => exact ih (applyOp o s) (applyOp_unique o s h)

theorem run_preserves_unique_triples_witness :
    UniqueTriples ([] : List TaskInstance) ∧
    UniqueTriples (run
      [Op.instantiateOp 1 1 1 10, Op.instantiateOp 1 1 1 10,
       Op.sweepOp 3 20, Op.transitionOp 1 1 1 21 StatusEvent.complete] []) := by
  have h0 : UniqueTriples ([] : List TaskInstance) := by
    intro c r p
    simp [countTriple]
  exact ⟨h0, run_preserves_unique_triples _ [] h0⟩

/-- C3: `completed` is terminal — no step of the status state machine moves a
completed TaskInstance (neither an explicit transition nor the sweep);
every status change follows the one-directional transitions
pending → in_progress → completed, pending/in_progress → overdue →
completed; and completion is reachable from any non-terminal state. -/
theorem status_machine_one_directional :
    (∀ e : StatusEvent, statusStep e Status.completed = Status.completed) ∧
    (∀ (e : StatusEvent) (s : Status),
        statusStep e s = s ∨ allowedTransition s (statusStep e s) = true) ∧
    (∀ s : Status, s ≠ Status.completed →
        statusStep StatusEvent.complete s = Status.completed) ∧
    (∀ (now : Nat) (e : StatusEvent) (ti : TaskInstance),
        ti.status = Status.completed → applyEvent now e ti = ti) ∧
    (∀ (lead today : Nat) (ti : TaskInstance),
        ti.status = Status.completed → sweepInstance lead today ti = (ti, [])) := by
  refine ⟨fun e => by cases e <;> rfl,
    fun e s => by cases e <;> cases s <;> simp [statusStep, allowedTransition],
    fun s h => by cases s <;> simp_all [statusStep], ?_, ?_⟩
  · intro now e ti h
    cases ti with
    | mk c r p d st ca el ln =>
      simp only at h
      subst h
      cases e <;> rfl
  · intro lead today ti h
    simp [sweepInstance, h]

theorem status_machine_one_directional_witness :
    statusStep StatusEvent.complete Status.overdue = Status.completed ∧
    applyEvent 7 StatusEvent.start
        ⟨1, 1, 1, 5, Status.completed, some 4, 0, none⟩ =
      ⟨1, 1, 1, 5, Status.completed, some 4, 0, none⟩ := by
  have h := status_machine_one_directional
  exact ⟨h.2.2.1 Status.overdue (by decide), h.2.2.2.1 7 StatusEvent.start _ rfl⟩

/-- C4: repeated sweep runs emit at most one notification per threshold
crossing.  A sweep finding a pending instance past its due date (its overdue
crossing not yet notified) transitions it to `overdue` and emits exactly one
notification; after that sweep every subsequent sweep — at any lead time and
any later (or other) day — emits nothing for this instance.  In general,
once the watermark records the overdue crossing no sweep ever emits again;
once it records the near-due crossing no sweep emits again while the due
date has not passed (the overdue crossing is a new threshold); the watermark
never goes down; an immediate re-sweep emits nothing; and a single sweep
emits at most one event per instance. -/
theorem sweep_emits_once_per_crossing (lead today : Nat) (ti : TaskInstance)
    (hs : ti.status = Status.pending) (hd : ti.due < today)
    (hw : watermarkRank ti.lastNotified < Threshold.rank Threshold.overdue) :
    (sweepInstance lead today ti).fst.status = Status.overdue ∧
    (sweepInstance lead today ti).snd =
      [⟨ti.company, ti.rule, ti.period, Threshold.overdue⟩] ∧
    (∀ lead' today' : Nat,
        (sweepInstance lead' today' (sweepInstance lead today ti).fst).snd = []) ∧
    (∀ (lead' today' : Nat) (u : TaskInstance),
        Threshold.rank Threshold.overdue ≤ watermarkRank u.lastNotified →
        (sweepInstance lead' today' u).snd = []) ∧
    (∀ (lead' today' : Nat) (u : TaskInstance),
        Threshold.rank Threshold.nearDue ≤ watermarkRank u.lastNotified →
        ¬ u.due < today' →
        (sweepInstance lead' today' u).snd = []) ∧
    (∀ (lead' today' : Nat) (u : TaskInstance),
        watermarkRank u.lastNotified ≤
          watermarkRank (sweepInstance lead' today' u).fst.lastNotified) ∧
    (∀ (lead' today' : Nat) (u : TaskInstance),
        (sweepInstance lead' today' (sweepInstance lead' today' u).fst).snd = []) ∧
    (∀ (lead' today' : Nat) (u : TaskInstance),
        (sweepInstance lead' today' u).snd.length ≤ 1) := by
  have hfst : (sweepInstance lead today ti).fst.lastNotified =
      some Threshold.overdue := by
    simp [sweepInstance, hs, hd, hw]
  refine ⟨?_, ?_, ?_, sweep_no_reemit_overdue, sweep_no_reemit_nearDue,
    sweep_watermark_mono, sweepInstance_dedup, sweepInstance_len⟩
  · simp [sweepInstance, hs, hd, hw]
  · simp [sweepInstance, hs, hd, hw]
  · intro lead' today'
    apply sweep_no_reemit_overdue
    rw [hfst]
    simp [watermarkRank]

theorem sweep_emits_once_per_crossing_witness :
    (sweepInstance 3 (rataDie 2025 11 21)
        ⟨1, 1, 202510, rataDie 2025 11 20, Status.pending, none, 0, none⟩).fst.status =
      Status.overdue ∧
    (sweepInstance 3 (rataDie 2025 11 21)
        ⟨1, 1, 202510, rataDie 2025 11 20, Status.pending, none, 0, none⟩).snd =
      [⟨1, 1, 202510, Threshold.overdue⟩] ∧
    (sweepInstance 3 (rataDie 2025 11 22)
        (sweepInstance 3 (rataDie 2025 11 21)
          ⟨1, 1, 202510, rataDie 2025 11 20, Status.pending, none, 0, none⟩).fst).snd =
      [] := by
  have h := sweep_emits_once_per_crossing 3 (rataDie 2025 11 21)
    ⟨1, 1, 202510, rataDie 2025 11 20, Status.pending, none, 0, none⟩
    rfl (by decide) (by decide)
  exact ⟨h.1, h.2.1, h.2.2.1 3 (rataDie 2025 11 22)⟩

/-- C5: for a valid target period and any holiday calendar the Due-Date
Calculator returns exactly the next business day at or after the period end
plus the rule's offset in calendar days: the returned date is a business
day, no earlier day at or after the offset date is one, and an offset date
that already is a business day is returned unchanged; for the rule
"GSTR-3B" (20-day offset) and period "2025-10" it returns 2025-11-20, which
is a business day (a Thursday, not a weekend). -/
theorem calcDueDate_offset_and_rollforward (holidays : List Nat)
    (r : ObligationRule) (p : Period)
    (h : periodLt p r.effectiveFrom = false) :
    (∃ due : Nat,
      calcDueDate holidays r p = Except.ok due ∧
      periodEndDay r.periodicity p + r.offsetDays ≤ due ∧
      isBusinessDay holidays due = true ∧
      (∀ d, periodEndDay r.periodicity p + r.offsetDays ≤ d → d < due →
          isBusinessDay holidays d = false) ∧
      (isBusinessDay holidays (periodEndDay r.periodicity p + r.offsetDays) = true →
          due = periodEndDay r.periodicity p + r.offsetDays)) ∧
    calcDueDate [] gstr3b ⟨2025, 10⟩ = Except.ok (rataDie 2025 11 20) ∧
    isBusinessDay [] (rataDie 2025 11 20) = true := by
  refine ⟨⟨rollForward holidays (7 * holidays.length + 7)
      (periodEndDay r.periodicity p + r.offsetDays),
    by simp [calcDueDate, h], rollForward_le holidays _ _, ?_, ?_, ?_⟩,
    by rfl, by decide⟩
  · apply rollForward_business_of_exists
    obtain ⟨k, hk, hb⟩ :=
      exists_business_within holidays (periodEndDay r.periodicity p + r.offsetDays)
    exact ⟨k, by omega, hb⟩
  · intro d h1 h2
    exact rollForward_min holidays _ _ d h1 h2
  · intro hb
    exact rollForward_of_business holidays _ _ hb

theorem calcDueDate_offset_and_rollforward_witness :
    periodLt ⟨2025, 10⟩ gstr3b.effectiveFrom = false ∧
    calcDueDate [] gstr3b ⟨2025, 10⟩ = Except.ok (rataDie 2025 11 20) := by
  have h := calcDueDate_offset_and_rollforward [] gstr3b ⟨2025, 10⟩ rfl
  exact ⟨rfl, h.2.1⟩

/-- C6: companies with zero TaskInstances in the trailing window get the
neutral score `none` rather than a division error, and any computed score is
a well-defined number bounded by 100 (no NaN, the zero denominator is
guarded). -/
theorem complianceScore_zero_denominator_neutral (c : Nat)
    (window : List TaskInstance) (h : instancesOf c window = []) :
    complianceScore c window = none ∧
    (∀ (c' : Nat) (w : List TaskInstance) (n : Nat),
        complianceScore c' w = some n → n ≤ 100) := by
  constructor
  · simp [complianceScore, h]
  · intro c' w n hn
    by_cases hz : (instancesOf c' w).length = 0
    · simp [complianceScore, hz] at hn
    · simp [complianceScore, hz] at hn
      have hk : ((instancesOf c' w).filter onTime).length ≤ (instancesOf c' w).length :=
        List.length_filter_le _ _
      have hle : 100 * ((instancesOf c' w).filter onTime).length /
          (instancesOf c' w).length ≤ 100 := by
        calc 100 * ((instancesOf c' w).filter onTime).length /
              (instancesOf c' w).length
            ≤ 100 * (instancesOf c' w).length / (instancesOf c' w).length :=
              Nat.div_le_div_right (Nat.mul_le_mul_left 100 hk)
          _ = 100 := Nat.mul_div_cancel 100 (Nat.pos_of_ne_zero hz)
      omega

theorem complianceScore_zero_denominator_neutral_witness :
    instancesOf 5 [] = [] ∧ complianceScore 5 [] = none := by
  have h := complianceScore_zero_denominator_neutral 5 [] rfl
  exact ⟨rfl, h.1⟩

/-- C7: for every rule and every requested period that predates the rule's
effective date, the Due-Date Calculator fails with `InvalidPeriodError`
instead of returning a date. -/
theorem calcDueDate_predates_effective_error (holidays : List Nat)
    (r : ObligationRule) (p : Period)
    (h : periodLt p r.effectiveFrom = true) :
    calcDueDate holidays r p = Except.error DueDateError.InvalidPeriodError := by
  simp [calcDueDate, h]

theorem calcDueDate_predates_effective_error_witness :
    periodLt ⟨2017, 6⟩ gstr3b.effectiveFrom = true ∧
    calcDueDate [] gstr3b ⟨2017, 6⟩ =
      Except.error DueDateError.InvalidPeriodError :=
  ⟨by decide, calcDueDate_predates_effective_error [] gstr3b ⟨2017, 6⟩ (by decide)⟩

/-- C8: the Due-Date Calculator is deterministic — two invocations on the
same rule, period and holiday calendar return the same result (the
calculator is a pure function of its inputs, consulting no clock or other
ambient state). -/
theorem calcDueDate_deterministic (holidays : List Nat) (r : ObligationRule)
    (p : Period) :
    calcDueDate holidays r p = calcDueDate holidays r p := rfl

/-- C9: the dashboard statistics are constants — the initial React state is
all zeros and the mount effect replaces it with totalCompanies = 45,
pendingTasks = 23, completedTasks = 156, overdueTask = 5 and
averageComplianceScore = 87, whatever the previous state, on every
execution. -/
theorem dashboard_stats_constant :
    initialStats = ⟨0, 0, 0, 0, 0⟩ ∧
    ∀ prev : DashboardStats, mountEffect prev = ⟨45, 23, 156, 5, 87⟩ :=
  ⟨rfl, fun _ => rfl⟩

/-- C10: when `docker-compose ps` shows no line matching
`compliancepro_db.*Up`, backup.sh exits with status 1 without invoking
`pg_dump`, so no backup file is written; only the backups directory is
created. -/
theorem backup_aborts_without_db (env : BackupEnv)
    (h : grepDbUp env.psLines = false) :
    (runBackup env).exitCode = 1 ∧ (runBackup env).pgDumpInvoked = false ∧
    (runBackup env).backupFileWritten = false ∧
    (runBackup env).backupsDirCreated = true := by
  simp [runBackup, h]

theorem backup_aborts_without_db_witness :
    grepDbUp ["compliancepro_api   Up", "compliancepro_db   Exit 1"] = false ∧
    (runBackup ⟨["compliancepro_api   Up", "compliancepro_db   Exit 1"], 0⟩).exitCode = 1 ∧
    (runBackup ⟨["compliancepro_api   Up", "compliancepro_db   Exit 1"], 0⟩).pgDumpInvoked = false ∧
    (runBackup ⟨["compliancepro_api   Up", "compliancepro_db   Exit 1"], 0⟩).backupFileWritten = false := by
  have h := backup_aborts_without_db
    ⟨["compliancepro_api   Up", "compliancepro_db   Exit 1"], 0⟩ (by decide)
  exact ⟨by decide, h.1, h.2.1, h.2.2.1⟩

end CompliancePro

